import Mathlib

/-!
Shallow embedding of the journal-entry audit pipeline of `api.py`
(the `analyze` request handler): schema inference over column names,
debit/credit versus single-amount reconciliation, the date-format
selection loop, row cleaning, the seven anomaly rules, the `Has Anomaly`
aggregation, the per-flag chart counts and the summary metrics.

Modelling conventions: a decoded table is a list of named columns whose
cells are `Option String` (a null or the cell's text as decoded from the
upload); machine floats are modelled as exact rationals; the dataframe
library's per-format date parsing and its weekday accessor are passed to
`analyze` as function parameters, since their outcome depends on the
column's runtime dtype, while every piece of logic written in `api.py`
itself is embedded as executable definitions below.
-/

namespace JE

/-- A cell as decoded from the uploaded file: null or text. -/
abbrev Cell := Option String

/-- A named column of the decoded table. -/
structure Column where
  name : String
  cells : List Cell
deriving DecidableEq

/-- The decoded table `df_full`: its columns in original order. -/
abbrev RawTable := List Column

/-- Row count of the table (`len(df_full)`). -/
def height (t : RawTable) : Nat :=
  (t.head?.map (fun c => c.cells.length)).getD 0

/-- Rectangularity: every column has the table's row count. -/
def Wellformed (t : RawTable) : Prop :=
  ∀ c ∈ t, c.cells.length = height t

instance (t : RawTable) : Decidable (Wellformed t) :=
  List.decidableBAll _ t

/-- ASCII lower-casing of one character. -/
def charLower (c : Char) : Char :=
  if 65 ≤ c.toNat ∧ c.toNat ≤ 90 then Char.ofNat (c.toNat + 32) else c

def lowerChars (cs : List Char) : List Char := cs.map charLower

/-- Python's `str.lower()` for the ASCII names and cells in play. -/
def strLower (s : String) : String := String.mk (lowerChars s.data)

/-- Whether the first list starts with the second. -/
def charsStartWith : List Char → List Char → Bool
  | _, [] => true
  | [], _ :: _ => false
  | c :: cs, d :: ds => c == d && charsStartWith cs ds

/-- Whether the needle occurs inside the haystack (Python's `in`). -/
def charsContain : List Char → List Char → Bool
  | [], needle => needle.isEmpty
  | c :: cs, needle => charsStartWith (c :: cs) needle || charsContain cs needle

/-- Case-insensitive substring test, `tok in name.lower()`. -/
def lowerHas (name tok : String) : Bool :=
  charsContain (lowerChars name.data) tok.data

/-- First column (in original order) whose lower-cased name contains one
of the role's tokens; `none` when no column matches. -/
def roleCol (t : RawTable) (toks : List String) : Option Column :=
  (t.filter (fun c => toks.any (fun tok => lowerHas c.name tok))).head?

def debitCol (t : RawTable) : Option Column := roleCol t ["debit"]

def creditCol (t : RawTable) : Option Column := roleCol t ["credit"]

def amountCol (t : RawTable) : Option Column := roleCol t ["amount", "amt"]

def dateCol (t : RawTable) : Option Column :=
  roleCol t ["date", "effective", "posted"]

/-- Key-field resolution used for account, description, je_id, created_by,
posted_by, cost_center and project. -/
def keyCol (t : RawTable) (tok : String) : Option Column := roleCol t [tok]

/-- Numeric value of a digit list. -/
def digitsVal (cs : List Char) : Nat :=
  cs.foldl (fun a c => a * 10 + (c.toNat - 48)) 0

def allDigits (cs : List Char) : Bool :=
  cs.all (fun c => 48 ≤ c.toNat && c.toNat ≤ 57)

/-- Split a character list at every dot, like `str.split(".")`. -/
def splitDot : List Char → List (List Char)
  | [] => [[]]
  | c :: rest =>
      if c = '.' then [] :: splitDot rest
      else
        match splitDot rest with
        | [] => [[c]]
        | h :: tl => (c :: h) :: tl

/-- Unsigned decimal numeral: integer digits and optional fractional
digits, at least one digit overall. -/
def parseUnsignedChars (cs : List Char) : Option ℚ :=
  match splitDot cs with
  | [ip] =>
      if 0 < ip.length && allDigits ip then some ((digitsVal ip : ℚ)) else none
  | [ip, fp] =>
      if 0 < ip.length + fp.length && allDigits ip && allDigits fp then
        some ((digitsVal ip : ℚ) + (digitsVal fp : ℚ) / (10 : ℚ) ^ fp.length)
      else none
  | _ => none

/-- Plain decimal numeral parsing, modelling the dataframe library's cast
of text to Float64 (optional sign, integer digits, optional fractional
digits); any other shape is unparseable and yields `none`. -/
def parseFloat (s : String) : Option ℚ :=
  match s.data with
  | '-' :: rest => (parseUnsignedChars rest).map (fun q => -q)
  | '+' :: rest => parseUnsignedChars rest
  | cs => parseUnsignedChars cs

/-- Drop the first comma of a character list, keeping any later ones
(the library's `str.replace(",", "")` replaces only the first match). -/
def removeFirstComma : List Char → List Char
  | [] => []
  | c :: rest => if c = ',' then rest else c :: removeFirstComma rest

def stripFirstComma (s : String) : String := String.mk (removeFirstComma s.data)

/-- Comma-free form of a cell text, as the spec's wording (strip every
thousands separator) prescribes; used to compare against the source's
first-comma-only behaviour. -/
def stripAllCommas (s : String) : String :=
  String.mk (s.data.filter (fun c => c != ','))

/-- Per-cell debit/credit value: cast to text, drop the first comma, cast
to Float64 non-strictly, fill nulls with 0.0. -/
def parseDC (c : Cell) : ℚ :=
  match c with
  | none => 0
  | some s => (parseFloat (stripFirstComma s)).getD 0

/-- The debit/credit amount series `dr - cr`; never null. -/
def dcAmounts (dc cc : Column) : List (Option ℚ) :=
  List.zipWith (fun a b => some (parseDC a - parseDC b)) dc.cells cc.cells

/-- The single-amount series: non-strict Float64 cast, nulls preserved. -/
def amtOnly (t : RawTable) : Option (List (Option ℚ)) :=
  (amountCol t).map (fun ac => ac.cells.map (fun c => c.bind parseFloat))

/-- STEP 1 of `analyze`: the reconciled amount series, `none` when no
amount-bearing column resolves. -/
def amountSeries (t : RawTable) : Option (List (Option ℚ)) :=
  match debitCol t, creditCol t with
  | some dc, some cc => some (dcAmounts dc cc)
  | some _, none => amtOnly t
  | none, some _ => amtOnly t
  | none, none => amtOnly t

/-- The fixed, ordered date-format list of the Smart Date Parsing step. -/
def dateFormats : List String :=
  ["%Y-%m-%d", "%d-%b-%Y", "%d-%b-%y", "%m/%d/%Y", "%d/%m/%Y",
   "%Y%m%d", "%B %d, %Y", "%b %d, %Y", "%d-%m-%Y", "%m-%d-%Y"]

/-- Library behaviour of one `str.strptime(..., fmt, strict=False)` attempt
on the resolved date column: either the attempt raises (non-string dtype)
or it yields the column parsed under that format, unparseable cells null. -/
abbrev StrpFn := String → Except Unit (List (Option Int))

/-- The format-selection loop. The first component models the `parsed`
variable: it is assigned the strptime expression before the attempt is
executed, so it is non-`none` as soon as one iteration has run, whether or
not that attempt raised; the second component is the adopted column, set
only by an attempt that did not raise (then the loop breaks). -/
def dateLoopAux (att : StrpFn) :
    List String → Option Unit → Option (List (Option Int)) →
      Option Unit × Option (List (Option Int))
  | [], sentinel, adopted => (sentinel, adopted)
  | f :: rest, _, adopted =>
      match att f with
      | Except.ok vals => (some (), some vals)
      | Except.error _ => dateLoopAux att rest (some ()) adopted

/-- Outcome of the date-normalization step for a resolved date column. -/
inductive DateCol
  | absent
  | parsed (vals : List (Option Int))
  | unparsed (cells : List Cell)
deriving DecidableEq

/-- Smart Date Parsing on a resolved date column: run the loop; afterwards
the column is dropped only when `parsed` is still `none`, kept parsed when
some attempt succeeded, and kept with its original cells otherwise. -/
def dateStep (att : StrpFn) (cells : List Cell) : DateCol :=
  let r := dateLoopAux att dateFormats none none
  match r.2 with
  | some vals => DateCol.parsed vals
  | none => if r.1.isNone then DateCol.absent else DateCol.unparsed cells

/-- STEP 2 plus Smart Date Parsing: the posting_date column's fate. -/
def dateResOf (strp : List Cell → StrpFn) (t : RawTable) : DateCol :=
  match dateCol t with
  | none => DateCol.absent
  | some c => dateStep (strp c.cells) c.cells

/-- A posting_date value after normalization: a parsed datetime (as an
epoch-day number) or an original cell kept unparsed together with the
weekday the library reports for it. -/
inductive PDate
  | d (n : Int)
  | raw (s : String) (wd : Option Int)
deriving DecidableEq

/-- ISO weekday (Monday = 1 .. Sunday = 7) of a parsed datetime. -/
def weekdayOfP : PDate → Option Int
  | PDate.d n => some ((n + 3).emod 7 + 1)
  | PDate.raw _ wd => wd

/-- A row of the canonical table: the reconciled amount plus the optional
canonical fields; a field's cell is meaningful only when the schema marks
its column present. -/
structure Row where
  amount : Option ℚ
  posting_date : Option PDate
  account : Option String
  description : Option String
  je_id : Option String
  created_by : Option String
  posted_by : Option String
  cost_center : Option String
  project : Option String
deriving DecidableEq

/-- Which optional canonical columns exist in the selected frame. -/
structure Schema where
  hasDate : Bool
  hasAccount : Bool
  hasDescription : Bool
  hasJeId : Bool
  hasCreatedBy : Bool
  hasPostedBy : Bool
  hasCostCenter : Bool
  hasProject : Bool
deriving DecidableEq

/-- Canonical schema of the selected frame after date normalization. -/
def schemaOf (t : RawTable) (d : DateCol) : Schema where
  hasDate := match d with | DateCol.absent => false | _ => true
  hasAccount := (keyCol t "account").isSome
  hasDescription := (keyCol t "description").isSome
  hasJeId := (keyCol t "je_id").isSome
  hasCreatedBy := (keyCol t "created_by").isSome
  hasPostedBy := (keyCol t "posted_by").isSome
  hasCostCenter := (keyCol t "cost_center").isSome
  hasProject := (keyCol t "project").isSome

/-- Cell of an optional source column at row index `i`. -/
def cellAt (oc : Option Column) (i : Nat) : Cell :=
  match oc with
  | none => none
  | some c => c.cells.getD i none

/-- posting_date value at row index `i` under the date outcome; the
weekday list `wkvals` is the library's elementwise weekday of an unparsed
column. -/
def pdAt (d : DateCol) (wkvals : List (Option Int)) (i : Nat) : Option PDate :=
  match d with
  | DateCol.absent => none
  | DateCol.parsed vals => (vals.getD i none).map PDate.d
  | DateCol.unparsed cells =>
      (cells.getD i none).map (fun s => PDate.raw s (wkvals.getD i none))

/-- The selected canonical frame, row by row. -/
def buildRows (t : RawTable) (amts : List (Option ℚ)) (d : DateCol)
    (wkvals : List (Option Int)) : List Row :=
  (List.range (height t)).map (fun i =>
    { amount := amts.getD i none
      posting_date := pdAt d wkvals i
      account := cellAt (keyCol t "account") i
      description := cellAt (keyCol t "description") i
      je_id := cellAt (keyCol t "je_id") i
      created_by := cellAt (keyCol t "created_by") i
      posted_by := cellAt (keyCol t "posted_by") i
      cost_center := cellAt (keyCol t "cost_center") i
      project := cellAt (keyCol t "project") i })

/-- Row Cleaner: drop null amounts, then null posting dates when that
column exists. -/
def cleanRows (sch : Schema) (rows : List Row) : List Row :=
  let r1 := rows.filter (fun r => r.amount.isSome)
  if sch.hasDate then r1.filter (fun r => r.posting_date.isSome) else r1

/-- Reading the amount column of the cleaned frame (non-null there). -/
def amtOf (r : Row) : ℚ := r.amount.getD 0

/-- Rule 1: the absolute amount is an integer value above 1000. -/
def roundLargeFlag (r : Row) : Bool :=
  decide (Int.fract |amtOf r| = 0) && decide ((1000 : ℚ) < |amtOf r|)

/-- Rule 2: absolute amount below 1. -/
def nearZeroFlag (r : Row) : Bool := decide (|amtOf r| < 1)

def suspiciousKeywords : List String :=
  ["adjust", "misc", "manual", "override", "error", "temp",
   "reversal", "correction", "clearing", "suspense", "miscellaneous"]

/-- Rule 3: lower-cased description is one of the fixed keywords;
false when the description column is absent. -/
def suspiciousFlag (sch : Schema) (r : Row) : Bool :=
  sch.hasDescription &&
    (match r.description with
     | some d => suspiciousKeywords.contains (strLower d)
     | none => false)

/-- Rule 4: the posting date's weekday is 6 or 7, nulls filled with
false; false when the posting_date column is absent. -/
def weekendFlag (sch : Schema) (r : Row) : Bool :=
  sch.hasDate &&
    (match r.posting_date with
     | some pd => ((weekdayOfP pd).map (fun w => decide (6 ≤ w))).getD false
     | none => false)

/-- Whether the cleaned frame has any non-amount column (the duplicate
rule's group keys). -/
def hasNonAmountCol (sch : Schema) : Bool :=
  sch.hasDate || sch.hasAccount || sch.hasDescription || sch.hasJeId ||
  sch.hasCreatedBy || sch.hasPostedBy || sch.hasCostCenter || sch.hasProject

/-- Masked field for the duplicate key: `none` when the column is absent. -/
def maskS (b : Bool) (v : Option String) : Option (Option String) :=
  if b then some v else none

/-- Value tuple of all non-amount columns of a row. -/
def dupKey (sch : Schema) (r : Row) :
    Option (Option PDate) × List (Option (Option String)) :=
  ((if sch.hasDate then some r.posting_date else none),
   [maskS sch.hasAccount r.account, maskS sch.hasDescription r.description,
    maskS sch.hasJeId r.je_id, maskS sch.hasCreatedBy r.created_by,
    maskS sch.hasPostedBy r.posted_by, maskS sch.hasCostCenter r.cost_center,
    maskS sch.hasProject r.project])

/-- Rule 5: the row's non-amount value tuple occurs more than once in the
cleaned set; false when there are no non-amount columns. -/
def dupFlag (sch : Schema) (rows : List Row) (r : Row) : Bool :=
  hasNonAmountCol sch && decide (2 ≤ (rows.map (dupKey sch)).count (dupKey sch r))

/-- Sorted-list quantile with the library's default nearest interpolation:
index `round(q * (n - 1))` into the sorted values. -/
def quantileNearest (xs : List ℚ) (q : ℚ) : ℚ :=
  let sorted := List.insertionSort (fun a b => a ≤ b) xs
  sorted.getD (round (q * ((xs.length : ℚ) - 1))).toNat 0

/-- The 99th-percentile threshold of absolute amounts of the cleaned set. -/
def quantile99 (rows : List Row) : ℚ :=
  quantileNearest (rows.map (fun r => |amtOf r|)) (99 / 100)

/-- Rule 6: absolute amount at or above the 99th percentile, evaluated
only when the cleaned set has more than 10 rows. -/
def highValueFlag (rows : List Row) (r : Row) : Bool :=
  if 10 < rows.length then decide (quantile99 rows ≤ |amtOf r|) else false

/-- Key tuple of rule 7. -/
def repKey (r : Row) : Option String × Option ℚ × Option String :=
  (r.account, r.amount, r.description)

/-- Rule 7: the (account, amount, description) tuple occurs more than once
in the cleaned set; false unless both account and description columns
exist. -/
def repFlag (sch : Schema) (rows : List Row) (r : Row) : Bool :=
  sch.hasDescription && sch.hasAccount &&
    decide (2 ≤ (rows.map repKey).count (repKey r))

/-- The seven flag column names, in the order they are appended. -/
def flagNames : List String :=
  ["Round Large Amount", "Near-Zero Amount", "Suspicious Description",
   "Weekend Entry", "Duplicate Entry", "High-Value Entry", "Repeating Entry"]

/-- Column names of the cleaned frame, in selection order. -/
def presentCols (sch : Schema) : List String :=
  ["amount"] ++ (if sch.hasDate then ["posting_date"] else []) ++
  (if sch.hasAccount then ["account"] else []) ++
  (if sch.hasDescription then ["description"] else []) ++
  (if sch.hasJeId then ["je_id"] else []) ++
  (if sch.hasCreatedBy then ["created_by"] else []) ++
  (if sch.hasPostedBy then ["posted_by"] else []) ++
  (if sch.hasCostCenter then ["cost_center"] else []) ++
  (if sch.hasProject then ["project"] else [])

/-- Column names of `results` after the seven flags are appended. -/
def resultCols (sch : Schema) : List String := presentCols sch ++ flagNames

/-- Case-sensitive test for the literal substring "Entry". -/
def hasEntrySub (s : String) : Bool := charsContain s.data "Entry".data

/-- The `anomaly_cols` selection: result columns other than "amount" and
"Has Anomaly" whose name contains "Entry". -/
def anomalyCols (sch : Schema) : List String :=
  (resultCols sch).filter
    (fun c => c != "amount" && c != "Has Anomaly" && hasEntrySub c)

/-- Value of the named flag column for a row of the cleaned set. -/
def flagOf (sch : Schema) (rows : List Row) (r : Row) (name : String) : Bool :=
  if name = "Round Large Amount" then roundLargeFlag r
  else if name = "Near-Zero Amount" then nearZeroFlag r
  else if name = "Suspicious Description" then suspiciousFlag sch r
  else if name = "Weekend Entry" then weekendFlag sch r
  else if name = "Duplicate Entry" then dupFlag sch rows r
  else if name = "High-Value Entry" then highValueFlag rows r
  else if name = "Repeating Entry" then repFlag sch rows r
  else false

/-- The derived `Has Anomaly` column: `any_horizontal` over `anomaly_cols`. -/
def hasAnomalyFlag (sch : Schema) (rows : List Row) (r : Row) : Bool :=
  (anomalyCols sch).any (fun c => flagOf sch rows r c)

/-- The `anomalies` frame: cleaned rows whose `Has Anomaly` is true. -/
def anomalousRows (sch : Schema) (rows : List Row) : List Row :=
  rows.filter (fun r => hasAnomalyFlag sch rows r)

/-- Sum of signed amounts of the cleaned set. -/
def totalNet (rows : List Row) : ℚ := (rows.map amtOf).sum

/-- Sum of absolute amounts of the cleaned set. -/
def absTotal (rows : List Row) : ℚ := (rows.map (fun r => |amtOf r|)).sum

/-- The raw imbalance percentage before rounding. -/
def imbalancePct (rows : List Row) : ℚ :=
  |totalNet rows| / (absTotal rows + 1 / 1000000) * 100

/-- Round half to even on rationals, as Python's round does. -/
def pyRound (x : ℚ) : ℤ :=
  if x - ⌊x⌋ < 1 / 2 then ⌊x⌋
  else if (1 : ℚ) / 2 < x - ⌊x⌋ then ⌊x⌋ + 1
  else if ⌊x⌋ % 2 = 0 then ⌊x⌋ else ⌊x⌋ + 1

/-- Rounding to two decimal places. -/
def round2 (x : ℚ) : ℚ := (pyRound (x * 100) : ℚ) / 100

/-- The success payload of the analyze operation. -/
structure Payload where
  totalEntries : Nat
  netBalance : ℚ
  imbalancePct : ℚ
  anomaliesFound : Nat
  chartAnomalies : List (String × Nat)
  anomaliesData : List Row
deriving DecidableEq

/-- Summary, charts and anomaly data computed from the cleaned set. -/
def buildPayload (sch : Schema) (cleaned : List Row) : Payload :=
  let anomalies := anomalousRows sch cleaned
  { totalEntries := cleaned.length
    netBalance := round2 (totalNet cleaned)
    imbalancePct := round2 (imbalancePct cleaned)
    anomaliesFound := anomalies.length
    chartAnomalies := (anomalyCols sch).map
      (fun c => (c, (anomalies.filter (fun r => flagOf sch cleaned r c)).length))
    anomaliesData := anomalies }

/-- Schema, cleaning and aggregation after the amount and date steps. -/
def mkOut (t : RawTable) (amts : List (Option ℚ)) (d : DateCol)
    (wkvals : List (Option Int)) : Payload :=
  buildPayload (schemaOf t d) (cleanRows (schemaOf t d) (buildRows t amts d wkvals))

/-- The analyze operation. `strp` is the library's strptime attempt for
the resolved date column; `wk` its weekday accessor on an unparsed
column, which raises unless the column already has a datetime dtype.
Every exception of the handler body surfaces as `Except.error`, mirroring
the handler's catch-all that reports `success: false` with a message. -/
def analyze (strp : List Cell → StrpFn)
    (wk : List Cell → Except Unit (List (Option Int))) (t : RawTable) :
    Except String Payload :=
  if height t = 0 then Except.error "File is empty"
  else
    match amountSeries t with
    | none => Except.error "No amount column found (looked for amount, debit, credit)"
    | some amts =>
      match dateResOf strp t with
      | DateCol.absent => Except.ok (mkOut t amts DateCol.absent [])
      | DateCol.parsed vals => Except.ok (mkOut t amts (DateCol.parsed vals) [])
      | DateCol.unparsed cells =>
        match wk cells with
        | Except.error _ =>
            Except.error "weekday is not defined on an unparsed posting_date column"
        | Except.ok wkvals => Except.ok (mkOut t amts (DateCol.unparsed cells) wkvals)

/-- A strptime stand-in whose every attempt raises (the behaviour on a
column whose dtype is not string). -/
def strpE : List Cell → StrpFn := fun _ _ => Except.error ()

/-- A weekday stand-in that raises (the behaviour on a non-datetime
column). -/
def wkE : List Cell → Except Unit (List (Option Int)) := fun _ => Except.error ()

/-- One-row table whose only true flag is Suspicious Description. -/
def bugTable : RawTable :=
  [⟨"Amount", [some "5"]⟩, ⟨"Description", [some "misc"]⟩]

/-- The single cleaned row of `bugTable`. -/
def bugRow : Row :=
  { amount := some 5, posting_date := none, account := none,
    description := some "misc", je_id := none, created_by := none,
    posted_by := none, cost_center := none, project := none }

/-- Canonical schema of `bugTable` (description only). -/
def bugSchema : Schema := schemaOf bugTable DateCol.absent

/-- One-row table carrying a debit/credit pair and an amount column. -/
def prioTable : RawTable :=
  [⟨"Debit", [some "100"]⟩, ⟨"Credit", [some "40"]⟩, ⟨"Amount", [some "999"]⟩]

def prioDebit : Column := ⟨"Debit", [some "100"]⟩

def prioCredit : Column := ⟨"Credit", [some "40"]⟩

def prioAmount : Column := ⟨"Amount", [some "999"]⟩

/-- One-row table with an amount column and a date column. -/
def c5Table : RawTable := [⟨"Amount", [some "10"]⟩, ⟨"Date", [some "x"]⟩]

/-- Two-row debit/credit table, the second row non-numeric or null. -/
def dcTable : RawTable :=
  [⟨"Debit", [some "100", some "x"]⟩, ⟨"Credit", [some "40", none]⟩]

def dcDebit : Column := ⟨"Debit", [some "100", some "x"]⟩

def dcCredit : Column := ⟨"Credit", [some "40", none]⟩

/-- The all-absent schema. -/
def sch0 : Schema := ⟨false, false, false, false, false, false, false, false⟩

/-- A lone row with a non-null amount. -/
def amtRow : Row :=
  { amount := some 1, posting_date := none, account := none,
    description := none, je_id := none, created_by := none,
    posted_by := none, cost_center := none, project := none }

instance {e a : Type} [DecidableEq e] [DecidableEq a] : DecidableEq (Except e a) :=
  fun x y =>
    match x, y with
    | Except.ok u, Except.ok v =>
        if h : u = v then isTrue (by rw [h])
        else isFalse (by intro hc; cases hc; exact h rfl)
    | Except.error u, Except.error v =>
        if h : u = v then isTrue (by rw [h])
        else isFalse (by intro hc; cases hc; exact h rfl)
    | Except.ok _, Except.error _ => isFalse (by intro hc; cases hc)
    | Except.error _, Except.ok _ => isFalse (by intro hc; cases hc)

set_option maxRecDepth 200000

theorem dateLoopAux_sentinel (att : StrpFn) :
    ∀ (fs : List String) (ad : Option (List (Option Int))),
      (dateLoopAux att fs (some ()) ad).1 = some () := by
  intro fs
  induction fs with
  | nil => intro ad; rfl
  | cons f rest ih =>
      intro ad
      unfold dateLoopAux
      cases att f with
      | ok vals => rfl
      | error e => exact ih ad

theorem abs_totalNet_le (rows : List Row) : |totalNet rows| ≤ absTotal rows := by
  unfold totalNet absTotal
  induction rows with
  | nil => simp
  | cons r rest ih =>
      simp only [List.map_cons, List.sum_cons]
      calc |amtOf r + (rest.map amtOf).sum|
          ≤ |amtOf r| + |(rest.map amtOf).sum| := abs_add _ _
        _ ≤ |amtOf r| + (rest.map (fun r => |amtOf r|)).sum := by
              exact add_le_add_left ih _

theorem absTotal_nonneg (rows : List Row) : 0 ≤ absTotal rows := by
  unfold absTotal
  induction rows with
  | nil => simp
  | cons r rest ih =>
      simp only [List.map_cons, List.sum_cons]
      exact add_nonneg (abs_nonneg _) ih

theorem imbalancePct_nonneg (rows : List Row) : 0 ≤ imbalancePct rows := by
  unfold imbalancePct
  have hden : (0 : ℚ) ≤ absTotal rows + 1 / 1000000 := by
    have := absTotal_nonneg rows
    linarith
  exact mul_nonneg (div_nonneg (abs_nonneg _) hden) (by norm_num)

theorem imbalancePct_lt_100 (rows : List Row) : imbalancePct rows < 100 := by
  unfold imbalancePct
  have hpos : (0 : ℚ) < absTotal rows + 1 / 1000000 := by
    have := absTotal_nonneg rows
    linarith
  have hratio : |totalNet rows| / (absTotal rows + 1 / 1000000) < 1 := by
    rw [div_lt_one hpos]
    have := abs_totalNet_le rows
    linarith
  calc |totalNet rows| / (absTotal rows + 1 / 1000000) * 100
      < 1 * 100 := by exact mul_lt_mul_of_pos_right hratio (by norm_num)
    _ = 100 := by norm_num

theorem pyRound_nonneg (x : ℚ) (h : 0 ≤ x) : 0 ≤ pyRound x := by
  unfold pyRound
  have hf : (0 : ℤ) ≤ ⌊x⌋ := Int.floor_nonneg.mpr h
  split
  · exact hf
  · split
    · omega
    · split
      · exact hf
      · omega

theorem pyRound_le (x : ℚ) (B : ℤ) (h : x < (B : ℚ)) : pyRound x ≤ B := by
  unfold pyRound
  have hf : ⌊x⌋ < B := Int.floor_lt.mpr h
  split
  · omega
  · split
    · omega
    · split
      · omega
      · omega

theorem round2_bounds (x : ℚ) (h0 : 0 ≤ x) (h1 : x < 100) :
    0 ≤ round2 x ∧ round2 x ≤ 100 := by
  unfold round2
  have hx0 : (0 : ℚ) ≤ x * 100 := by positivity
  have hx1 : x * 100 < ((10000 : ℤ) : ℚ) := by push_cast; linarith
  have lo := pyRound_nonneg (x * 100) hx0
  have hi := pyRound_le (x * 100) 10000 hx1
  constructor
  · positivity
  · rw [div_le_iff₀ (by norm_num : (0 : ℚ) < 100)]
    calc ((pyRound (x * 100) : ℚ)) ≤ ((10000 : ℤ) : ℚ) := by exact_mod_cast hi
      _ = 100 * 100 := by norm_num

theorem removeFirstComma_eq_filter (cs : List Char)
    (h : cs.count ',' ≤ 1) : removeFirstComma cs = cs.filter (fun c => c != ',') := by
  induction cs with
  | nil => rfl
  | cons c rest ih =>
      by_cases hc : c = ','
      · subst hc
        have hrest : rest.count ',' = 0 := by
          have := h
          rw [List.count_cons] at this
          simp at this
          omega
        have hall : ∀ x ∈ rest, (x != ',') = true := by
          intro x hx
          have : ',' ∉ rest := by
            rw [← List.count_eq_zero] at *
            exact hrest
          simp only [bne_iff_ne, ne_eq]
          intro hxe
          exact this (hxe ▸ hx)
        simp only [removeFirstComma, if_pos rfl, List.filter_cons]
        simp only [bne_self_eq_false, if_neg]
        rw [List.filter_eq_self.mpr hall]
        simp
      · have hcount : rest.count ',' ≤ 1 := by
          rw [List.count_cons] at h
          omega
        simp only [removeFirstComma, if_neg hc, List.filter_cons]
        have : (c != ',') = true := by simp [bne_iff_ne, hc]
        rw [this]
        simp [ih hcount]

theorem zipWithSome_getD_isSome (f : Cell → Cell → ℚ) :
    ∀ (xs ys : List Cell) (i : Nat), i < xs.length → i < ys.length →
      ((List.zipWith (fun a b => some (f a b)) xs ys).getD i none).isSome = true := by
  intro xs
  induction xs with
  | nil => intro ys i h1 _; simp at h1
  | cons x xrest ih =>
      intro ys i h1 h2
      cases ys with
      | nil => simp at h2
      | cons y yrest =>
          cases i with
          | zero => rfl
          | succ j =>
              simp only [List.zipWith_cons_cons, List.getD_cons_succ]
              exact ih yrest j (by simpa using h1) (by simpa using h2)

theorem roleCol_mem (t : RawTable) (toks : List String) (c : Column)
    (h : roleCol t toks = some c) : c ∈ t := by
  unfold roleCol at h
  cases hf : t.filter (fun c => toks.any (fun tok => lowerHas c.name tok)) with
  | nil => rw [hf] at h; simp at h
  | cons x rest =>
      rw [hf] at h
      simp only [List.head?] at h
      have hx : c = x := by injection h with h2; exact h2.symm
      subst hx
      have : c ∈ t.filter (fun c => toks.any (fun tok => lowerHas c.name tok)) := by
        rw [hf]; exact List.mem_cons_self _ _
      exact List.mem_of_mem_filter this

theorem roleCol_length (t : RawTable) (toks : List String) (c : Column)
    (hwf : Wellformed t) (h : roleCol t toks = some c) :
    c.cells.length = height t :=
  hwf c (roleCol_mem t toks c h)

/-- C1: the derived Has Anomaly flag is not the OR of the seven anomaly
flags. On `bugTable` the single cleaned row has Suspicious Description
true and the other six flags false; the code's `anomaly_cols` keeps only
the result columns whose name contains "Entry", so `Has Anomaly` comes
out false and the payload reports zero anomalies, where the claim
requires Has Anomaly = true. -/
theorem c1_has_anomaly_entry_filter_bug :
    suspiciousFlag bugSchema bugRow = true ∧
    roundLargeFlag bugRow = false ∧
    nearZeroFlag bugRow = false ∧
    weekendFlag bugSchema bugRow = false ∧
    dupFlag bugSchema [bugRow] bugRow = false ∧
    highValueFlag [bugRow] bugRow = false ∧
    repFlag bugSchema [bugRow] bugRow = false ∧
    anomalyCols bugSchema =
      ["Weekend Entry", "Duplicate Entry", "High-Value Entry", "Repeating Entry"] ∧
    hasAnomalyFlag bugSchema [bugRow] bugRow = false ∧
    amountSeries bugTable = some [some 5] ∧
    cleanRows bugSchema (buildRows bugTable [some 5] DateCol.absent []) = [bugRow] ∧
    (analyze strpE wkE bugTable).toOption.map Payload.anomaliesFound = some 0 := by
  with_unfolding_all decide

/-- C2: the success payload's charts.anomalies mapping does not contain
an entry for each of the seven flags: on `bugTable` it has exactly the
four names containing "Entry", and in particular no entry for Suspicious
Description even though that flag is true on the only cleaned row. -/
theorem c2_charts_entry_filter_bug :
    (analyze strpE wkE bugTable).toOption.map
        (fun p => p.chartAnomalies.map Prod.fst) =
      some ["Weekend Entry", "Duplicate Entry", "High-Value Entry", "Repeating Entry"] ∧
    suspiciousFlag bugSchema bugRow = true ∧
    (analyze strpE wkE bugTable).toOption.map
        (fun p => p.chartAnomalies.map Prod.fst |>.contains "Suspicious Description") =
      some false := by
  with_unfolding_all decide

/-- C3 counterexample: the debit/credit cell "1,234,567" contributes 0.0,
not its comma-free numeric value 1234567, because only the first comma is
removed before the Float64 cast. -/
theorem c3_multi_comma_counterexample :
    parseDC (some "1,234,567") = 0 ∧
    parseFloat (stripAllCommas "1,234,567") = some 1234567 ∧
    parseDC (some "1,234,567") ≠ (parseFloat (stripAllCommas "1,234,567")).getD 0 := by
  refine ⟨by decide, by decide, ?_⟩
  intro h
  have h1 : parseDC (some "1,234,567") = 0 := by decide
  have h2 : (parseFloat (stripAllCommas "1,234,567")).getD 0 = 1234567 := by decide
  rw [h1, h2] at h
  exact absurd h (by decide)

/-- C3 amended: only the first comma of a debit/credit cell is removed
before the non-strict Float64 cast; for cells with at most one comma this
coincides with removing every comma, so such cells contribute the
comma-free numeric value when it parses and 0.0 otherwise (never null,
never an error). -/
theorem c3_first_comma_only (s : String) (h : s.data.count ',' ≤ 1) :
    parseDC (some s) = (parseFloat (stripAllCommas s)).getD 0 ∧
    parseDC none = 0 ∧
    (∀ dc cc : Column, dcAmounts dc cc =
      List.zipWith (fun a b => some (parseDC a - parseDC b)) dc.cells cc.cells) := by
  refine ⟨?_, rfl, fun dc cc => rfl⟩
  show (parseFloat (stripFirstComma s)).getD 0 = (parseFloat (stripAllCommas s)).getD 0
  unfold stripFirstComma stripAllCommas
  rw [removeFirstComma_eq_filter s.data h]

theorem c3_first_comma_only_witness :
    "1,234".data.count ',' ≤ 1 ∧
    parseDC (some "1,234") = (parseFloat (stripAllCommas "1,234")).getD 0 :=
  ⟨by decide, (c3_first_comma_only "1,234" (by decide)).1⟩

/-- C4: when both a debit and a credit column resolve, the amount series
is debit minus credit over the first-matching pair, an expression that
does not consult the amount-matching column; when no debit/credit pair
resolves but an amount column does, that column is cast non-strictly so
unparseable cells become null. -/
theorem c4_amount_priority (t : RawTable) :
    (∀ dc cc, debitCol t = some dc → creditCol t = some cc →
        amountSeries t = some (dcAmounts dc cc)) ∧
    (∀ ac, (debitCol t = none ∨ creditCol t = none) → amountCol t = some ac →
        amountSeries t = some (ac.cells.map (fun c => c.bind parseFloat))) := by
  constructor
  · intro dc cc h1 h2
    unfold amountSeries
    rw [h1, h2]
  · intro ac hor hac
    have hamt : amtOnly t = some (ac.cells.map (fun c => c.bind parseFloat)) := by
      unfold amtOnly
      rw [hac]
      rfl
    unfold amountSeries
    rcases hor with h | h
    · rw [h]
      cases h2 : creditCol t <;> simp [hamt]
    · rw [h]
      cases h2 : debitCol t <;> simp [hamt]

theorem c4_amount_priority_witness :
    amountSeries prioTable = some (dcAmounts prioDebit prioCredit) ∧
    amountCol prioTable = some prioAmount ∧
    some (prioAmount.cells.map (fun c => c.bind parseFloat)) ≠
      some (dcAmounts prioDebit prioCredit) := by
  refine ⟨(c4_amount_priority prioTable).1 prioDebit prioCredit (by decide) (by decide),
    by decide, ?_⟩
  intro h
  have h1 : prioAmount.cells.map (fun c => c.bind parseFloat) = [some 999] := by
    with_unfolding_all decide
  have h2 : dcAmounts prioDebit prioCredit = [some 60] := by
    with_unfolding_all decide
  rw [h1, h2] at h
  have h3 : ((999 : ℚ) = 60) := by
    injection h with h4
    injection h4 with h5
    injection h5
  exact absurd h3 (by decide)

/-- C5: the format-selection loop assigns the `parsed` sentinel before
each attempt executes, so after the loop the sentinel is never `none` for
any attempt behaviour: the branch that would drop the posting_date role
is unreachable. When every attempt raises, the role is kept with its
cells unparsed, the canonical schema still carries the date role, and on
a kept column that does not support the weekday accessor the request
fails — where the claim says the role is dropped and the request
proceeds. -/
theorem c5_date_drop_unreachable :
    (∀ att : StrpFn, (dateLoopAux att dateFormats none none).1 = some ()) ∧
    dateStep (strpE []) [some "x"] = DateCol.unparsed [some "x"] ∧
    (schemaOf c5Table (dateResOf strpE c5Table)).hasDate = true ∧
    analyze strpE wkE c5Table =
      Except.error "weekday is not defined on an unparsed posting_date column" := by
  refine ⟨?_, by decide, by decide, by with_unfolding_all decide⟩
  intro att
  show (dateLoopAux att ("%Y-%m-%d" ::
    ["%d-%b-%Y", "%d-%b-%y", "%m/%d/%Y", "%d/%m/%Y",
     "%Y%m%d", "%B %d, %Y", "%b %d, %Y", "%d-%m-%Y", "%m-%d-%Y"]) none none).1 = some ()
  unfold dateLoopAux
  cases h : att "%Y-%m-%d" with
  | ok vals => rfl
  | error e => exact dateLoopAux_sentinel att _ none

/-- C6: High-Value Entry is true iff the cleaned set has strictly more
than 10 rows and the row's absolute amount is at or above the
99th-percentile threshold computed once over the whole cleaned set; with
10 or fewer rows no row is ever flagged. -/
theorem c6_high_value (rows : List Row) (r : Row) :
    (highValueFlag rows r = true ↔
      10 < rows.length ∧ quantile99 rows ≤ |amtOf r|) ∧
    (rows.length ≤ 10 → highValueFlag rows r = false) := by
  unfold highValueFlag
  constructor
  · split
    · next hlen => simp [hlen]
    · next hlen => simp [hlen]
  · intro hle
    split
    · next hlen => omega
    · rfl

theorem c6_high_value_witness : highValueFlag [] amtRow = false :=
  (c6_high_value [] amtRow).2 (by decide)

/-- C7: a row survives the Row Cleaner iff its amount is non-null and,
when the schema carries a posting_date column, its posting_date is also
non-null; the cleaned row count never exceeds the input row count. -/
theorem c7_row_cleaner (sch : Schema) (rows : List Row) :
    (∀ r, r ∈ cleanRows sch rows ↔
        r ∈ rows ∧ r.amount.isSome = true ∧
          (sch.hasDate = true → r.posting_date.isSome = true)) ∧
    (cleanRows sch rows).length ≤ rows.length := by
  cases hd : sch.hasDate with
  | true =>
      constructor
      · intro r
        simp [cleanRows, hd, List.mem_filter]
        tauto
      · simp only [cleanRows, hd, if_true]
        exact le_trans (List.length_filter_le _ _) (List.length_filter_le _ _)
  | false =>
      constructor
      · intro r
        simp [cleanRows, hd, List.mem_filter]
      · simp only [cleanRows, hd, if_false]
        exact List.length_filter_le _ _

theorem c7_row_cleaner_witness : amtRow ∈ cleanRows sch0 [amtRow] :=
  ((c7_row_cleaner sch0 [amtRow]).1 amtRow).mpr ⟨by decide, by decide, by decide⟩

/-- C8: the reported Imbalance % — the rounded
abs(net) / (sum of abs + 1e-6) * 100 — always lies in [0, 100]; amounts
are modelled as exact rationals, so every value is finite. -/
theorem c8_imbalance_bound (sch : Schema) (rows : List Row) :
    0 ≤ (buildPayload sch rows).imbalancePct ∧
      (buildPayload sch rows).imbalancePct ≤ 100 :=
  round2_bounds (imbalancePct rows) (imbalancePct_nonneg rows)
    (imbalancePct_lt_100 rows)

/-- C9: analyze returns a failure exactly when the decoded table is
empty, when no amount-bearing column resolves, or when an exception is
raised during analysis (here: the weekday accessor raising on a kept
unparsed posting_date column); the empty-table and no-amount-column
failures carry their descriptive messages, and the result type makes a
failure and a success payload mutually exclusive. -/
theorem c9_failure_modes (strp : List Cell → StrpFn)
    (wk : List Cell → Except Unit (List (Option Int))) (t : RawTable) :
    (height t = 0 → analyze strp wk t = Except.error "File is empty") ∧
    (height t ≠ 0 → amountSeries t = none →
      analyze strp wk t =
        Except.error "No amount column found (looked for amount, debit, credit)") ∧
    ((∃ e, analyze strp wk t = Except.error e) ↔
      (height t = 0 ∨ amountSeries t = none ∨
        ∃ cells, dateResOf strp t = DateCol.unparsed cells ∧
          ∃ u, wk cells = Except.error u)) := by
  refine ⟨?_, ?_, ?_, ?_⟩
  · intro h
    simp [analyze, h]
  · intro h h2
    simp [analyze, h, h2]
  · rintro ⟨e, he⟩
    rw [analyze] at he
    split at he
    · next h0 => exact Or.inl h0
    · next h0 =>
        split at he
        · next ha => exact Or.inr (Or.inl ha)
        · next amts ha =>
            split at he
            · next hd => simp at he
            · next vals hd => simp at he
            · next cells hd =>
                split at he
                · next u hw => exact Or.inr (Or.inr ⟨cells, hd, u, hw⟩)
                · next wkvals hw => simp at he
  · rintro (h | h | ⟨cells, hd, u, hw⟩)
    · exact ⟨"File is empty", by rw [analyze, if_pos h]⟩
    · by_cases h0 : height t = 0
      · exact ⟨"File is empty", by rw [analyze, if_pos h0]⟩
      · exact ⟨"No amount column found (looked for amount, debit, credit)",
          by rw [analyze, if_neg h0, h]⟩
    · by_cases h0 : height t = 0
      · exact ⟨"File is empty", by rw [analyze, if_pos h0]⟩
      · cases ha : amountSeries t with
        | none =>
            exact ⟨"No amount column found (looked for amount, debit, credit)",
              by rw [analyze, if_neg h0, ha]⟩
        | some amts =>
            refine ⟨"weekday is not defined on an unparsed posting_date column", ?_⟩
            rw [analyze, if_neg h0, ha]
            dsimp only
            rw [hd]
            dsimp only
            rw [hw]

theorem c9_failure_modes_witness :
    analyze strpE wkE [] = Except.error "File is empty" :=
  (c9_failure_modes strpE wkE []).1 rfl

/-- C10: when the debit/credit path is taken every reconciled amount is a
non-null value, so the Row Cleaner's null-amount filter removes no row in
that mode; rows can then be dropped only by the null-posting-date
filter. -/
theorem c10_dc_amounts_nonnull (t : RawTable) (hwf : Wellformed t)
    (dc cc : Column) (hd : debitCol t = some dc) (hc : creditCol t = some cc)
    (d : DateCol) (wkvals : List (Option Int)) (sch : Schema) :
    (∀ r ∈ buildRows t (dcAmounts dc cc) d wkvals, r.amount.isSome = true) ∧
    cleanRows sch (buildRows t (dcAmounts dc cc) d wkvals) =
      (if sch.hasDate = true then
        (buildRows t (dcAmounts dc cc) d wkvals).filter
          (fun r => r.posting_date.isSome)
      else buildRows t (dcAmounts dc cc) d wkvals) := by
  have hlen1 : dc.cells.length = height t := roleCol_length t ["debit"] dc hwf hd
  have hlen2 : cc.cells.length = height t := roleCol_length t ["credit"] cc hwf hc
  have hmain : ∀ r ∈ buildRows t (dcAmounts dc cc) d wkvals,
      r.amount.isSome = true := by
    intro r hr
    unfold buildRows at hr
    rw [List.mem_map] at hr
    obtain ⟨i, hi, hri⟩ := hr
    rw [List.mem_range] at hi
    subst hri
    show ((dcAmounts dc cc).getD i none).isSome = true
    unfold dcAmounts
    exact zipWithSome_getD_isSome _ dc.cells cc.cells i (by omega) (by omega)
  refine ⟨hmain, ?_⟩
  have hfil : (buildRows t (dcAmounts dc cc) d wkvals).filter
      (fun r => r.amount.isSome) = buildRows t (dcAmounts dc cc) d wkvals :=
    List.filter_eq_self.mpr hmain
  simp only [cleanRows, hfil]

theorem c10_dc_amounts_nonnull_witness :
    cleanRows sch0 (buildRows dcTable (dcAmounts dcDebit dcCredit) DateCol.absent []) =
      buildRows dcTable (dcAmounts dcDebit dcCredit) DateCol.absent [] := by
  have h := (c10_dc_amounts_nonnull dcTable (by decide) dcDebit dcCredit
    (by decide) (by decide) DateCol.absent [] sch0).2
  simpa [sch0] using h

end JE
